import Mathlib

/-!
Shallow embedding of `src/server.ts` (the `SignalingServer` class of the
WhatsApp-style WebRTC signaling server).

Modelling conventions:
* A WebSocket connection handle is an opaque comparable token, modelled as `Nat`.
* The transport's view of each connection's `readyState` is a snapshot
  `isOpen : Nat → Bool` (`isOpen c = true` iff `c.readyState === WebSocket.OPEN`);
  the server only reads it, never changes it.
* The JavaScript `Map<string, User>` is an insertion-ordered association list:
  `Map.set` on a fresh key appends, on an existing key updates in place;
  `Map.get` finds the entry; `Map.delete` removes it; `forEach` iterates in
  insertion order.
* Every `ws.send(...)` performed by a handler is recorded, in order, as a pair
  `(connection, Out)` in the handler's output list; nothing else is observable.
* `uuidv4()` and `Date.now()` are external effects, passed in as explicit
  parameters (`freshId`, `now`).
* JavaScript truthiness of the optional string fields (`!message.username`
  is true for both a missing field and the empty string) is `truthy`.
-/

/-- The `User` interface of `server.ts`: `{ id, username, ws, isOnline }`. -/
structure User where
  id : String
  username : String
  ws : Nat
  isOnline : Bool
deriving Repr, DecidableEq

/-- The `Message` interface of `server.ts`. `type` is a `String` because
`JSON.parse` performs no validation (the TS union type is erased at runtime);
the `data` payload is opaque to the server and modelled as a string. -/
structure Message where
  type : String
  userId : Option String := none
  username : Option String := none
  targetUserId : Option String := none
  data : Option String := none
  timestamp : Option Nat := none
deriving Repr, DecidableEq

/-- An observable outbound frame, by shape:
`joined` replies, `user-list` roster payloads (each roster row is
`(id, username, isOnline)`), verbatim-forwarded envelopes, and `error` replies. -/
inductive Out where
  | joined (userId username : String)
  | userList (users : List (String × String × Bool))
  | fwd (m : Message)
  | err (msg : String)
deriving Repr, DecidableEq

/-- The `users` map of `SignalingServer`, as an insertion-ordered assoc list. -/
abbrev Registry := List (String × User)

/-- JavaScript truthiness of an optional string field: `undefined` and `""`
are falsy, every other string is truthy. -/
def truthy : Option String → Bool
  | none => false
  | some s => !(s == "")

/-- `Map.get`. -/
def mapGet (users : Registry) (k : String) : Option User :=
  (users.find? (fun p => p.1 == k)).map Prod.snd

/-- `Map.set`: update in place when the key is present, append otherwise. -/
def mapSet (users : Registry) (k : String) (v : User) : Registry :=
  if users.any (fun p => p.1 == k) then
    users.map (fun p => if p.1 == k then (k, v) else p)
  else
    users ++ [(k, v)]

/-- `Map.delete`. -/
def mapDelete (users : Registry) (k : String) : Registry :=
  users.filter (fun p => p.1 != k)

/-- `broadcastUserList`: project every user to `{id, username, isOnline}`,
serialize once, send the identical payload to every user whose connection is
open (`readyState === OPEN`). -/
def broadcastUserList (isOpen : Nat → Bool) (users : Registry) : List (Nat × Out) :=
  let userList := users.map (fun p => (p.2.id, p.2.username, p.2.isOnline))
  (users.filter (fun p => isOpen p.2.ws)).map (fun p => (p.2.ws, Out.userList userList))

/-- `sendError`: reply an `error` frame to `ws`, guarded by
`ws.readyState === WebSocket.OPEN`. -/
def sendError (isOpen : Nat → Bool) (ws : Nat) (msg : String) : List (Nat × Out) :=
  if isOpen ws then [(ws, Out.err msg)] else []

/-- `handleJoin`: reject a falsy username with an error reply; otherwise mint
`freshId` (the `uuidv4()` result), store the `User`, send the `joined` reply to
the joining socket (note: this `ws.send` is NOT guarded by an open check in the
source), then broadcast the user list. -/
def handleJoin (isOpen : Nat → Bool) (freshId : String) (ws : Nat) (m : Message)
    (users : Registry) : Registry × List (Nat × Out) :=
  if truthy m.username then
    let username := m.username.getD ""
    let user : User := ⟨freshId, username, ws, true⟩
    let users1 := mapSet users freshId user
    (users1, (ws, Out.joined freshId username) :: broadcastUserList isOpen users1)
  else
    (users, sendError isOpen ws "Username is required")

/-- `handleWebRTCSignaling` (for `offer`/`answer`/`ice-candidate`): on a falsy
`targetUserId`, only `console.error` (no reply — the method does not even
receive the sender's socket); otherwise look the target up and forward the
envelope verbatim iff the target exists and its connection is open. -/
def handleWebRTCSignaling (isOpen : Nat → Bool) (m : Message)
    (users : Registry) : Registry × List (Nat × Out) :=
  if truthy m.targetUserId then
    match mapGet users (m.targetUserId.getD "") with
    | some targetUser =>
      if isOpen targetUser.ws then (users, [(targetUser.ws, Out.fwd m)])
      else (users, [])
    | none => (users, [])
  else
    (users, [])

/-- `handleTyping` (for `typing`/`stop-typing`): on a falsy `userId`, only
`console.error`; otherwise forward the envelope verbatim to every registered
user whose map key differs from `message.userId` and whose connection is open. -/
def handleTyping (isOpen : Nat → Bool) (m : Message)
    (users : Registry) : Registry × List (Nat × Out) :=
  if truthy m.userId then
    (users,
      (users.filter (fun p => p.1 != m.userId.getD "" && isOpen p.2.ws)).map
        (fun p => (p.2.ws, Out.fwd m)))
  else
    (users, [])

/-- `handleChatMessage`: on a falsy `userId` or `username`, only
`console.error`; otherwise stamp `timestamp = Date.now()` over any
client-supplied value and forward to every user with an open connection,
the sender included. -/
def handleChatMessage (isOpen : Nat → Bool) (now : Nat) (m : Message)
    (users : Registry) : Registry × List (Nat × Out) :=
  if truthy m.userId && truthy m.username then
    let timestampedMessage := { m with timestamp := some now }
    (users,
      (users.filter (fun p => isOpen p.2.ws)).map
        (fun p => (p.2.ws, Out.fwd timestampedMessage)))
  else
    (users, [])

/-- `handleDisconnect`: scan the map in insertion order, remembering the userId
of each entry whose socket is the closing one (so the LAST match wins), then —
if a truthy userId was found — delete that single entry and broadcast the user
list. -/
def handleDisconnect (isOpen : Nat → Bool) (ws : Nat)
    (users : Registry) : Registry × List (Nat × Out) :=
  match (users.filter (fun p => p.2.ws == ws)).getLast? with
  | some found =>
    if found.1 == "" then (users, [])
    else
      let users1 := mapDelete users found.1
      (users1, broadcastUserList isOpen users1)
  | none => (users, [])

/-- `handleMessage`: the dispatch switch over `message.type`. -/
def handleMessage (isOpen : Nat → Bool) (freshId : String) (now : Nat) (ws : Nat)
    (m : Message) (users : Registry) : Registry × List (Nat × Out) :=
  if m.type == "join" then
    handleJoin isOpen freshId ws m users
  else if m.type == "offer" || m.type == "answer" || m.type == "ice-candidate" then
    handleWebRTCSignaling isOpen m users
  else if m.type == "typing" || m.type == "stop-typing" then
    handleTyping isOpen m users
  else if m.type == "message" then
    handleChatMessage isOpen now m users
  else
    (users, sendError isOpen ws ("Unknown message type: " ++ m.type))

/-- The `ws.on("close", ...)` handler of `setupWebSocket`: clears the ping
interval (not registry-relevant) and calls `handleDisconnect`. -/
def onClose (isOpen : Nat → Bool) (ws : Nat) (users : Registry) :
    Registry × List (Nat × Out) :=
  handleDisconnect isOpen ws users

/-- The `ws.on("error", ...)` handler of `setupWebSocket`: it only logs and
clears the ping interval; it does NOT call `handleDisconnect`. -/
def onTransportError (_ws : Nat) (users : Registry) : Registry × List (Nat × Out) :=
  (users, [])

/-- The seven message types the dispatch switch recognizes; every other type
falls to the `default` branch. -/
def knownTypes : List String :=
  ["join", "offer", "answer", "ice-candidate", "typing", "stop-typing", "message"]

-- Concrete fixtures used by witness theorems.

/-- A world where every connection is open. -/
def openAll : Nat → Bool := fun _ => true

/-- A world where no connection is open. -/
def openNone : Nat → Bool := fun _ => false

/-- A world where exactly connection 1 is open. -/
def openOne : Nat → Bool := fun c => c == 1

/-- Fixture user on connection 0. -/
def uAlice : User := ⟨"u1", "alice", 0, true⟩

/-- Fixture user on connection 0, registered after `uAlice`. -/
def uBob : User := ⟨"u2", "bob", 0, true⟩

/-- Fixture user on connection 1. -/
def uCarol : User := ⟨"u3", "carol", 1, true⟩

/-- Fixture offer envelope targeting identity `u1`. -/
def mOffer : Message := { type := "offer", targetUserId := some "u1" }

/-- Fixture chat envelope from `u1` with a client-supplied timestamp. -/
def mChat : Message :=
  { type := "message", userId := some "u1", username := some "alice", timestamp := some 7 }

/-- `mChat` with the server-assigned timestamp 42 overriding the client's 7. -/
def mChatStamped : Message :=
  { type := "message", userId := some "u1", username := some "alice", timestamp := some 42 }

/-- Fixture typing envelope claiming identity `u3`. -/
def mTyping : Message := { type := "typing", userId := some "u3" }

/-- Fixture join envelope with display name `alice`. -/
def mJoin : Message := { type := "join", username := some "alice" }

/-- Fixture join envelope with display name `bob`. -/
def mJoinBob : Message := { type := "join", username := some "bob" }

-- sanity checks of the embedding on concrete runs
example :
    handleJoin (fun _ => true) "u1" 0 { type := "join", username := some "alice" } [] =
      ([("u1", ⟨"u1", "alice", 0, true⟩)],
        [(0, Out.joined "u1" "alice"),
         (0, Out.userList [("u1", "alice", true)])]) := by decide

example :
    handleDisconnect (fun _ => true) 0 [("u1", ⟨"u1", "alice", 0, true⟩)] =
      ([], []) := by decide

/-- Truthiness of a present, non-empty string field. -/
theorem truthy_some (s : String) (h : s ≠ "") : truthy (some s) = true := by
  simp [truthy]
  exact h

-- Helper lemmas about the embedded operations (shared across claims).

/-- Membership of the value selected by `getLast?`. -/
theorem mem_of_getLast_opt {α : Type} {l : List α} {a : α}
    (h : l.getLast? = some a) : a ∈ l := by
  obtain ⟨hne, heq⟩ := List.mem_getLast?_eq_getLast (show a ∈ l.getLast? from h)
  rw [heq]
  exact List.getLast_mem hne

/-- A list of length at most one with a last element is that singleton. -/
theorem eq_singleton_of_getLast_opt {α : Type} {l : List α} {a : α}
    (h1 : l.getLast? = some a) (h2 : l.length ≤ 1) : l = [a] := by
  cases l with
  | nil => simp at h1
  | cons b t =>
    cases t with
    | nil =>
      simp only [List.getLast?_singleton, Option.some.injEq] at h1
      rw [h1]
    | cons d t2 => simp at h2

/-- `broadcastUserList` unfolded: the identical projected payload mapped over
the open connections of the registry. -/
theorem broadcastUserList_eq (isOpen : Nat → Bool) (users : Registry) :
    broadcastUserList isOpen users =
      (users.filter (fun p => isOpen p.2.ws)).map
        (fun p => (p.2.ws,
          Out.userList (users.map (fun q => (q.2.id, q.2.username, q.2.isOnline))))) :=
  rfl

/-- Every broadcast send carries the single projected payload and goes to the
open connection of a registered participant. -/
theorem broadcastUserList_sends_shape (isOpen : Nat → Bool) (users : Registry) :
    ∀ s ∈ broadcastUserList isOpen users,
      s.2 = Out.userList (users.map (fun q => (q.2.id, q.2.username, q.2.isOnline))) ∧
      ∃ p ∈ users, isOpen p.2.ws = true ∧ s.1 = p.2.ws := by
  intro s hs
  rw [broadcastUserList_eq] at hs
  obtain ⟨p, hpf, hpe⟩ := List.mem_map.1 hs
  obtain ⟨hpu, hpo⟩ := List.mem_filter.1 hpf
  exact ⟨by rw [← hpe], p, hpu, hpo, by rw [← hpe]⟩

/-- Broadcast sends only target open connections. -/
theorem broadcastUserList_open (isOpen : Nat → Bool) (users : Registry) :
    ∀ s ∈ broadcastUserList isOpen users, isOpen s.1 = true := by
  intro s hs
  obtain ⟨-, p, -, hpo, hse⟩ := broadcastUserList_sends_shape isOpen users s hs
  rw [hse]
  exact hpo

/-- `sendError` sends only target open connections. -/
theorem sendError_open (isOpen : Nat → Bool) (ws : Nat) (msg : String) :
    ∀ s ∈ sendError isOpen ws msg, isOpen s.1 = true := by
  intro s hs
  unfold sendError at hs
  by_cases h : isOpen ws = true
  · rw [if_pos h] at hs
    rw [List.mem_singleton.1 hs]
    exact h
  · rw [if_neg h] at hs
    exact absurd hs (List.not_mem_nil s)

/-- `handleJoin` on a truthy username. -/
theorem handleJoin_ok (isOpen : Nat → Bool) (freshId : String) (ws : Nat)
    (m : Message) (users : Registry) (h : truthy m.username = true) :
    handleJoin isOpen freshId ws m users =
      (mapSet users freshId ⟨freshId, m.username.getD "", ws, true⟩,
        (ws, Out.joined freshId (m.username.getD "")) ::
          broadcastUserList isOpen
            (mapSet users freshId ⟨freshId, m.username.getD "", ws, true⟩)) := by
  simp [handleJoin, h]

/-- `handleJoin` on a falsy username. -/
theorem handleJoin_bad (isOpen : Nat → Bool) (freshId : String) (ws : Nat)
    (m : Message) (users : Registry) (h : truthy m.username = false) :
    handleJoin isOpen freshId ws m users =
      (users, sendError isOpen ws "Username is required") := by
  simp [handleJoin, h]

/-- `handleTyping` on a truthy userId. -/
theorem handleTyping_ok (isOpen : Nat → Bool) (m : Message) (users : Registry)
    (h : truthy m.userId = true) :
    handleTyping isOpen m users =
      (users,
        (users.filter (fun p => p.1 != m.userId.getD "" && isOpen p.2.ws)).map
          (fun p => (p.2.ws, Out.fwd m))) := by
  simp [handleTyping, h]

/-- `handleChatMessage`: every send is the stamped envelope. -/
theorem handleChatMessage_sends_fwd (isOpen : Nat → Bool) (now : Nat)
    (m : Message) (users : Registry) :
    ∀ s ∈ (handleChatMessage isOpen now m users).2,
      s.2 = Out.fwd { m with timestamp := some now } := by
  intro s hs
  unfold handleChatMessage at hs
  by_cases h : (truthy m.userId && truthy m.username) = true
  · rw [if_pos h] at hs
    obtain ⟨p, -, hpe⟩ := List.mem_map.1 hs
    rw [← hpe]
  · rw [if_neg h] at hs
    exact absurd hs (List.not_mem_nil s)

/-- `handleChatMessage` sends only target open connections. -/
theorem handleChatMessage_open (isOpen : Nat → Bool) (now : Nat)
    (m : Message) (users : Registry) :
    ∀ s ∈ (handleChatMessage isOpen now m users).2, isOpen s.1 = true := by
  intro s hs
  unfold handleChatMessage at hs
  by_cases h : (truthy m.userId && truthy m.username) = true
  · rw [if_pos h] at hs
    obtain ⟨p, hpf, hpe⟩ := List.mem_map.1 hs
    obtain ⟨-, hpo⟩ := List.mem_filter.1 hpf
    rw [← hpe]
    exact hpo
  · rw [if_neg h] at hs
    exact absurd hs (List.not_mem_nil s)

/-- `handleTyping`: every send is the verbatim envelope, to an open connection. -/
theorem handleTyping_sends_fwd (isOpen : Nat → Bool) (m : Message) (users : Registry) :
    ∀ s ∈ (handleTyping isOpen m users).2, s.2 = Out.fwd m ∧ isOpen s.1 = true := by
  intro s hs
  unfold handleTyping at hs
  by_cases h : truthy m.userId = true
  · rw [if_pos h] at hs
    obtain ⟨p, hpf, hpe⟩ := List.mem_map.1 hs
    obtain ⟨-, hcond⟩ := List.mem_filter.1 hpf
    rw [Bool.and_eq_true] at hcond
    exact ⟨by rw [← hpe], by rw [← hpe]; exact hcond.2⟩
  · rw [if_neg h] at hs
    exact absurd hs (List.not_mem_nil s)

/-- `handleWebRTCSignaling`: every send is the verbatim envelope, to an open
connection. -/
theorem handleWebRTCSignaling_sends_fwd (isOpen : Nat → Bool) (m : Message)
    (users : Registry) :
    ∀ s ∈ (handleWebRTCSignaling isOpen m users).2,
      s.2 = Out.fwd m ∧ isOpen s.1 = true := by
  intro s hs
  unfold handleWebRTCSignaling at hs
  by_cases htr : truthy m.targetUserId = true
  · rw [if_pos htr] at hs
    cases hg : mapGet users (m.targetUserId.getD "") with
    | none => simp only [hg] at hs; exact absurd hs (List.not_mem_nil s)
    | some u =>
      simp only [hg] at hs
      by_cases ho : isOpen u.ws = true
      · rw [if_pos ho] at hs
        rw [List.mem_singleton.1 hs]
        exact ⟨rfl, ho⟩
      · rw [if_neg ho] at hs
        exact absurd hs (List.not_mem_nil s)
  · rw [if_neg htr] at hs
    exact absurd hs (List.not_mem_nil s)

/-- `mapGet` misses exactly when no key matches. -/
theorem not_mem_keys_of_mapGet_none (users : Registry) (k : String)
    (h : mapGet users k = none) : ∀ p ∈ users, ¬((p.1 == k) = true) := by
  intro p hp hpk
  unfold mapGet at h
  cases hf : users.find? (fun q => q.1 == k) with
  | some v => rw [hf] at h; simp at h
  | none => exact (List.find?_eq_none.mp hf) p hp hpk

/-- `Map.set` with an unused key appends. -/
theorem mapSet_fresh (users : Registry) (k : String) (v : User)
    (h : ∀ p ∈ users, ¬((p.1 == k) = true)) :
    mapSet users k v = users ++ [(k, v)] := by
  have hany : ¬(users.any (fun p => p.1 == k) = true) := by
    intro hc
    obtain ⟨p, hp, hpk⟩ := List.any_eq_true.mp hc
    exact h p hp hpk
  simp [mapSet, hany]

/-- `Map.get` finds a freshly appended entry. -/
theorem mapGet_append_single (users : Registry) (k : String) (v : User)
    (h : ∀ p ∈ users, ¬((p.1 == k) = true)) :
    mapGet (users ++ [(k, v)]) k = some v := by
  unfold mapGet
  induction users with
  | nil => simp
  | cons a t ih =>
    have hak : (a.1 == k) = false := by
      have := h a (by simp)
      simpa using this
    rw [List.cons_append, List.find?_cons_of_neg _ (by simp [hak])]
    exact ih (fun p hp => h p (by simp [hp]))

/-- `handleDisconnect` when no entry matches the closing socket. -/
theorem handleDisconnect_none (isOpen : Nat → Bool) (ws : Nat) (users : Registry)
    (h : (users.filter (fun p => p.2.ws == ws)).getLast? = none) :
    handleDisconnect isOpen ws users = (users, []) := by
  simp [handleDisconnect, h]

/-- `handleDisconnect` when the last matching entry has a truthy key. -/
theorem handleDisconnect_found (isOpen : Nat → Bool) (ws : Nat) (users : Registry)
    (found : String × User)
    (h : (users.filter (fun p => p.2.ws == ws)).getLast? = some found)
    (hk : (found.1 == "") = false) :
    handleDisconnect isOpen ws users =
      (mapDelete users found.1,
        broadcastUserList isOpen (mapDelete users found.1)) := by
  simp [handleDisconnect, h, hk]

/-- Dispatch of the `join` kind. -/
theorem handleMessage_join (isOpen : Nat → Bool) (freshId : String) (now ws : Nat)
    (m : Message) (users : Registry) (h : m.type = "join") :
    handleMessage isOpen freshId now ws m users = handleJoin isOpen freshId ws m users := by
  simp [handleMessage, h]

/-- Dispatch of the WebRTC signaling kinds. -/
theorem handleMessage_webrtc (isOpen : Nat → Bool) (freshId : String) (now ws : Nat)
    (m : Message) (users : Registry)
    (h : m.type = "offer" ∨ m.type = "answer" ∨ m.type = "ice-candidate") :
    handleMessage isOpen freshId now ws m users = handleWebRTCSignaling isOpen m users := by
  rcases h with h | h | h <;> simp [handleMessage, h]

/-- Dispatch of the typing kinds. -/
theorem handleMessage_typing (isOpen : Nat → Bool) (freshId : String) (now ws : Nat)
    (m : Message) (users : Registry)
    (h : m.type = "typing" ∨ m.type = "stop-typing") :
    handleMessage isOpen freshId now ws m users = handleTyping isOpen m users := by
  rcases h with h | h <;> simp [handleMessage, h]

/-- Dispatch of the `message` kind. -/
theorem handleMessage_chat (isOpen : Nat → Bool) (freshId : String) (now ws : Nat)
    (m : Message) (users : Registry) (h : m.type = "message") :
    handleMessage isOpen freshId now ws m users = handleChatMessage isOpen now m users := by
  simp [handleMessage, h]

/-- C2: point-to-point routing correctness. For an `offer`/`answer`/
`ice-candidate` envelope whose `targetUserId` is present (truthy), the registry
is never changed; if the target identity is registered and its connection is
open the envelope is forwarded verbatim to exactly that connection; if the
target is absent, or present but not open, nothing is sent. -/
theorem C2_point_to_point_routing (isOpen : Nat → Bool) (m : Message)
    (users : Registry) (t : String) (ht : m.targetUserId = some t) (hne : t ≠ "") :
    (handleWebRTCSignaling isOpen m users).1 = users ∧
    (∀ u, mapGet users t = some u → isOpen u.ws = true →
      (handleWebRTCSignaling isOpen m users).2 = [(u.ws, Out.fwd m)]) ∧
    (mapGet users t = none → (handleWebRTCSignaling isOpen m users).2 = []) ∧
    (∀ u, mapGet users t = some u → isOpen u.ws = false →
      (handleWebRTCSignaling isOpen m users).2 = []) := by
  rcases hg : mapGet users t with _ | u
  · simp [handleWebRTCSignaling, ht, truthy_some t hne, hg]
  · rcases ho : isOpen u.ws with _ | _
    · simp [handleWebRTCSignaling, ht, truthy_some t hne, hg, ho]
    · simp [handleWebRTCSignaling, ht, truthy_some t hne, hg, ho]

/-- Witness for C2 at a concrete input: one registered open target. -/
theorem C2_point_to_point_routing_witness :
    (handleWebRTCSignaling openAll mOffer [("u1", uAlice)]).1 = [("u1", uAlice)] ∧
    (∀ u, mapGet [("u1", uAlice)] "u1" = some u → openAll u.ws = true →
      (handleWebRTCSignaling openAll mOffer [("u1", uAlice)]).2 =
        [(u.ws, Out.fwd mOffer)]) ∧
    (mapGet [("u1", uAlice)] "u1" = none →
      (handleWebRTCSignaling openAll mOffer [("u1", uAlice)]).2 = []) ∧
    (∀ u, mapGet [("u1", uAlice)] "u1" = some u → openAll u.ws = false →
      (handleWebRTCSignaling openAll mOffer [("u1", uAlice)]).2 = []) :=
  C2_point_to_point_routing openAll mOffer [("u1", uAlice)] "u1" rfl (by decide)

/-- C3: chat fan-out. For a `message` envelope with truthy `userId` and
`username`, the registry is unchanged, the stamped envelope is sent to exactly
the registered users with an open connection (the sender's entry included if it
is one of them), every original field is intact, and the server-assigned
timestamp overrides any client-supplied one. -/
theorem C3_chat_fanout (isOpen : Nat → Bool) (now : Nat) (m : Message)
    (users : Registry) (su sn : String) (hu : m.userId = some su) (hsu : su ≠ "")
    (hn : m.username = some sn) (hsn : sn ≠ "") :
    (handleChatMessage isOpen now m users).1 = users ∧
    (handleChatMessage isOpen now m users).2 =
      (users.filter (fun p => isOpen p.2.ws)).map
        (fun p => (p.2.ws, Out.fwd { m with timestamp := some now })) ∧
    (∀ p ∈ users, isOpen p.2.ws = true →
      (p.2.ws, Out.fwd { m with timestamp := some now }) ∈
        (handleChatMessage isOpen now m users).2) ∧
    ({ m with timestamp := some now } : Message).timestamp = some now ∧
    ({ m with timestamp := some now } : Message).type = m.type ∧
    ({ m with timestamp := some now } : Message).userId = m.userId ∧
    ({ m with timestamp := some now } : Message).username = m.username ∧
    ({ m with timestamp := some now } : Message).targetUserId = m.targetUserId ∧
    ({ m with timestamp := some now } : Message).data = m.data := by
  have htu : truthy m.userId = true := by rw [hu]; simp [truthy]; exact hsu
  have htn : truthy m.username = true := by rw [hn]; simp [truthy]; exact hsn
  refine ⟨?_, ?_, ?_, rfl, rfl, rfl, rfl, rfl, rfl⟩
  · simp [handleChatMessage, htu, htn]
  · simp [handleChatMessage, htu, htn]
  · intro p hp ho
    simp only [handleChatMessage, htu, htn, Bool.and_self, if_true]
    exact List.mem_map.2 ⟨p, List.mem_filter.2 ⟨hp, ho⟩, rfl⟩

/-- Witness for C3 at a concrete input: two registered users, sender included;
the client timestamp 7 is overridden by the server timestamp 42. -/
theorem C3_chat_fanout_witness :
    (handleChatMessage openAll 42 mChat [("u1", uAlice), ("u3", uCarol)]).2 =
      [(0, Out.fwd mChatStamped), (1, Out.fwd mChatStamped)] := by
  have h := C3_chat_fanout openAll 42 mChat [("u1", uAlice), ("u3", uCarol)]
    "u1" "alice" rfl (by decide) rfl (by decide)
  rw [h.2.1]
  decide

/-- C5: join success. For a join envelope with a non-empty display name, given
that the minted identity (`uuidv4()`'s result) is not currently in the
registry, the server appends a Participant with that identity, the display
name, the sending connection's handle and `isOnline = true`, makes it
retrievable under the fresh identity, replies `joined{identity, display name}`
to the joining connection — the only `joined` send — and then broadcasts the
roster of the updated registry. -/
theorem C5_join_success (isOpen : Nat → Bool) (freshId : String) (ws : Nat)
    (m : Message) (users : Registry) (uname : String)
    (hn : m.username = some uname) (hne : uname ≠ "")
    (hfresh : mapGet users freshId = none) :
    (handleJoin isOpen freshId ws m users).1 =
      users ++ [(freshId, ⟨freshId, uname, ws, true⟩)] ∧
    mapGet (handleJoin isOpen freshId ws m users).1 freshId =
      some ⟨freshId, uname, ws, true⟩ ∧
    (handleJoin isOpen freshId ws m users).2 =
      (ws, Out.joined freshId uname) ::
        broadcastUserList isOpen (handleJoin isOpen freshId ws m users).1 ∧
    (∀ s ∈ (handleJoin isOpen freshId ws m users).2,
      (∃ uid un, s.2 = Out.joined uid un) → s = (ws, Out.joined freshId uname)) := by
  have htr : truthy m.username = true := by rw [hn]; exact truthy_some uname hne
  have hnk := not_mem_keys_of_mapGet_none users freshId hfresh
  have hset : mapSet users freshId ⟨freshId, uname, ws, true⟩ =
      users ++ [(freshId, ⟨freshId, uname, ws, true⟩)] :=
    mapSet_fresh users freshId _ hnk
  have hok := handleJoin_ok isOpen freshId ws m users htr
  rw [hn] at hok
  simp only [Option.getD_some] at hok
  refine ⟨?_, ?_, ?_, ?_⟩
  · rw [hok]
    exact hset
  · rw [hok]
    show mapGet (mapSet users freshId ⟨freshId, uname, ws, true⟩) freshId = _
    rw [hset]
    exact mapGet_append_single users freshId _ hnk
  · rw [hok]
  · intro s hs hex
    rw [hok] at hs
    rcases List.mem_cons.1 hs with h1 | h2
    · exact h1
    · obtain ⟨uid, un, hj⟩ := hex
      have hshape := (broadcastUserList_sends_shape isOpen _ s h2).1
      rw [hshape] at hj
      exact absurd hj (by simp)

/-- Witness for C5 at a concrete input: `alice` joins on connection 3 while
`uAlice` is already registered. -/
theorem C5_join_success_witness :
    (handleJoin openAll "u9" 3 mJoin [("u1", uAlice)]).1 =
      [("u1", uAlice)] ++ [("u9", ⟨"u9", "alice", 3, true⟩)] ∧
    mapGet (handleJoin openAll "u9" 3 mJoin [("u1", uAlice)]).1 "u9" =
      some ⟨"u9", "alice", 3, true⟩ ∧
    (handleJoin openAll "u9" 3 mJoin [("u1", uAlice)]).2 =
      (3, Out.joined "u9" "alice") ::
        broadcastUserList openAll (handleJoin openAll "u9" 3 mJoin [("u1", uAlice)]).1 ∧
    (∀ s ∈ (handleJoin openAll "u9" 3 mJoin [("u1", uAlice)]).2,
      (∃ uid un, s.2 = Out.joined uid un) → s = (3, Out.joined "u9" "alice")) :=
  C5_join_success openAll "u9" 3 mJoin [("u1", uAlice)] "alice" rfl (by decide) (by decide)

/-- C8: unrecognized kinds. For any envelope whose type is none of the seven
dispatched kinds (this covers `leave`, `joined`, `user-list`, `error` and
anything else), the registry is unchanged and the only effect is an `error`
reply to the sending connection describing the unknown kind (skipped, like
every `sendError`, when that connection is not open). -/
theorem C8_unknown_kind (isOpen : Nat → Bool) (freshId : String) (now ws : Nat)
    (m : Message) (users : Registry) (h : m.type ∉ knownTypes) :
    handleMessage isOpen freshId now ws m users =
      (users, sendError isOpen ws ("Unknown message type: " ++ m.type)) := by
  simp only [knownTypes, List.mem_cons, List.not_mem_nil, or_false, not_or] at h
  obtain ⟨h1, h2, h3, h4, h5, h6, h7⟩ := h
  simp [handleMessage, h1, h2, h3, h4, h5, h6, h7]

/-- Witness for C8 at a concrete input: the reserved kind `leave`. -/
theorem C8_unknown_kind_witness :
    handleMessage openAll "u9" 0 0 { type := "leave" } [("u1", uAlice)] =
      ([("u1", uAlice)], sendError openAll 0 ("Unknown message type: " ++ "leave")) :=
  C8_unknown_kind openAll "u9" 0 0 { type := "leave" } [("u1", uAlice)] (by decide)

/-- C10: typing exclusion is keyed on the envelope's claimed identity. For a
`typing`/`stop-typing` envelope with truthy `userId`, the registry is
unchanged, every send is the verbatim envelope, and a connection receives it
iff it belongs to a registered participant whose map key differs from the
envelope's `userId` field and whose connection is open — independent of which
connection delivered the envelope (the handler never sees the sender's socket). -/
theorem C10_typing_keyed_on_claimed_identity (isOpen : Nat → Bool) (m : Message)
    (users : Registry) (claimed : String) (hu : m.userId = some claimed)
    (hne : claimed ≠ "") :
    (handleTyping isOpen m users).1 = users ∧
    (∀ s ∈ (handleTyping isOpen m users).2, s.2 = Out.fwd m) ∧
    (∀ c : Nat, (c, Out.fwd m) ∈ (handleTyping isOpen m users).2 ↔
      ∃ p ∈ users, p.1 ≠ claimed ∧ isOpen p.2.ws = true ∧ p.2.ws = c) := by
  have hsimp :
      handleTyping isOpen m users =
        (users,
          (users.filter (fun p => p.1 != claimed && isOpen p.2.ws)).map
            (fun p => (p.2.ws, Out.fwd m))) := by
    simp [handleTyping, hu, truthy_some claimed hne]
  refine ⟨by rw [hsimp], ?_, ?_⟩
  · intro s hs
    rw [hsimp] at hs
    obtain ⟨p, _, hps⟩ := List.mem_map.1 hs
    rw [← hps]
  · intro c
    rw [hsimp]
    constructor
    · intro hmem
      obtain ⟨p, hpf, hpe⟩ := List.mem_map.1 hmem
      obtain ⟨hpu, hcond⟩ := List.mem_filter.1 hpf
      rw [Bool.and_eq_true] at hcond
      obtain ⟨hk, ho⟩ := hcond
      exact ⟨p, hpu, by simpa using hk, ho, congrArg Prod.fst hpe⟩
    · intro hex
      obtain ⟨p, hpu, hk, ho, hw⟩ := hex
      subst hw
      refine List.mem_map.2 ⟨p, List.mem_filter.2 ⟨hpu, ?_⟩, rfl⟩
      rw [Bool.and_eq_true]
      exact ⟨by simpa using hk, ho⟩

/-- Witness for C10 at a concrete input: the envelope claims `uCarol`'s
identity, so it is withheld from `uCarol` and echoed to `uAlice` on
connection 0. -/
theorem C10_typing_keyed_on_claimed_identity_witness :
    (handleTyping openAll mTyping [("u1", uAlice), ("u3", uCarol)]).1 =
      [("u1", uAlice), ("u3", uCarol)] ∧
    (0, Out.fwd mTyping) ∈ (handleTyping openAll mTyping [("u1", uAlice), ("u3", uCarol)]).2 ∧
    ¬ (1, Out.fwd mTyping) ∈ (handleTyping openAll mTyping [("u1", uAlice), ("u3", uCarol)]).2 := by
  have h := C10_typing_keyed_on_claimed_identity openAll mTyping
    [("u1", uAlice), ("u3", uCarol)] "u3" rfl (by decide)
  refine ⟨h.1, (h.2.2 0).2 ⟨("u1", uAlice), by decide, by decide, by decide, by decide⟩, ?_⟩
  intro hmem
  have hex := (h.2.2 1).1 hmem
  revert hex
  decide

/-- C7: roster broadcast correctness. Every broadcast sends one identical
payload — the registry's current enumeration projected to
`(id, username, isOnline)` — to exactly the registered participants with open
connections; a successful join replies `joined` and then broadcasts the
updated registry, an actual removal broadcasts the updated registry, and
handling an `offer`, `answer`, `ice-candidate`, `typing`, `stop-typing` or
`message` envelope never produces a `user-list` send. -/
theorem C7_roster_broadcast_correctness (isOpen : Nat → Bool) (freshId : String)
    (now ws c : Nat) (m : Message) (users : Registry) :
    (∀ p ∈ users, isOpen p.2.ws = true →
      (p.2.ws, Out.userList (users.map (fun q => (q.2.id, q.2.username, q.2.isOnline)))) ∈
        broadcastUserList isOpen users) ∧
    (∀ s ∈ broadcastUserList isOpen users,
      s.2 = Out.userList (users.map (fun q => (q.2.id, q.2.username, q.2.isOnline))) ∧
      ∃ p ∈ users, isOpen p.2.ws = true ∧ s.1 = p.2.ws) ∧
    (truthy m.username = true →
      (handleJoin isOpen freshId ws m users).2 =
        (ws, Out.joined freshId (m.username.getD "")) ::
          broadcastUserList isOpen (handleJoin isOpen freshId ws m users).1) ∧
    ((onClose isOpen c users).1 ≠ users →
      (onClose isOpen c users).2 =
        broadcastUserList isOpen (onClose isOpen c users).1) ∧
    (m.type = "offer" ∨ m.type = "answer" ∨ m.type = "ice-candidate" ∨
        m.type = "typing" ∨ m.type = "stop-typing" ∨ m.type = "message" →
      ∀ s ∈ (handleMessage isOpen freshId now ws m users).2,
        ∀ l, s.2 ≠ Out.userList l) := by
  refine ⟨?_, broadcastUserList_sends_shape isOpen users, ?_, ?_, ?_⟩
  · intro p hp ho
    rw [broadcastUserList_eq]
    exact List.mem_map.2 ⟨p, List.mem_filter.2 ⟨hp, ho⟩, rfl⟩
  · intro htr
    rw [handleJoin_ok isOpen freshId ws m users htr]
  · intro hne
    show (handleDisconnect isOpen c users).2 =
      broadcastUserList isOpen (handleDisconnect isOpen c users).1
    cases hf : (users.filter (fun p => p.2.ws == c)).getLast? with
    | none =>
      exfalso
      apply hne
      show (handleDisconnect isOpen c users).1 = users
      rw [handleDisconnect_none isOpen c users hf]
    | some found =>
      by_cases hk : (found.1 == "") = true
      · exfalso
        apply hne
        show (handleDisconnect isOpen c users).1 = users
        simp [handleDisconnect, hf, hk]
      · rw [handleDisconnect_found isOpen c users found hf (by simpa using hk)]
  · intro hty s hs l
    rcases hty with h | h | h | h | h | h
    · rw [handleMessage_webrtc isOpen freshId now ws m users (Or.inl h)] at hs
      rw [(handleWebRTCSignaling_sends_fwd isOpen m users s hs).1]
      simp
    · rw [handleMessage_webrtc isOpen freshId now ws m users (Or.inr (Or.inl h))] at hs
      rw [(handleWebRTCSignaling_sends_fwd isOpen m users s hs).1]
      simp
    · rw [handleMessage_webrtc isOpen freshId now ws m users (Or.inr (Or.inr h))] at hs
      rw [(handleWebRTCSignaling_sends_fwd isOpen m users s hs).1]
      simp
    · rw [handleMessage_typing isOpen freshId now ws m users (Or.inl h)] at hs
      rw [(handleTyping_sends_fwd isOpen m users s hs).1]
      simp
    · rw [handleMessage_typing isOpen freshId now ws m users (Or.inr h)] at hs
      rw [(handleTyping_sends_fwd isOpen m users s hs).1]
      simp
    · rw [handleMessage_chat isOpen freshId now ws m users h] at hs
      rw [handleChatMessage_sends_fwd isOpen now m users s hs]
      simp

/-- Witness for C7 at concrete inputs: a two-user registry where only
connection 1 is open, a join, a removal, and a chat dispatch. -/
theorem C7_roster_broadcast_correctness_witness :
    (1, Out.userList ([("u1", uAlice), ("u3", uCarol)].map
        (fun q => (q.2.id, q.2.username, q.2.isOnline)))) ∈
      broadcastUserList openOne [("u1", uAlice), ("u3", uCarol)] ∧
    (handleJoin openOne "u9" 3 mJoin [("u1", uAlice), ("u3", uCarol)]).2 =
      (3, Out.joined "u9" (mJoin.username.getD "")) ::
        broadcastUserList openOne
          (handleJoin openOne "u9" 3 mJoin [("u1", uAlice), ("u3", uCarol)]).1 ∧
    (onClose openOne 0 [("u1", uAlice), ("u3", uCarol)]).2 =
      broadcastUserList openOne (onClose openOne 0 [("u1", uAlice), ("u3", uCarol)]).1 ∧
    (∀ s ∈ (handleMessage openOne "u9" 5 3 mChat [("u1", uAlice), ("u3", uCarol)]).2,
      ∀ l, s.2 ≠ Out.userList l) := by
  have hJ := C7_roster_broadcast_correctness openOne "u9" 5 3 0 mJoin
    [("u1", uAlice), ("u3", uCarol)]
  have hC := C7_roster_broadcast_correctness openOne "u9" 5 3 0 mChat
    [("u1", uAlice), ("u3", uCarol)]
  exact ⟨hJ.1 ("u3", uCarol) (by decide) (by decide),
    hJ.2.2.1 (by decide),
    hJ.2.2.2.1 (by decide),
    hC.2.2.2.2 (by decide)⟩

/-- `handleDisconnect` when the last matching entry has the (falsy) empty key. -/
theorem handleDisconnect_found_empty (isOpen : Nat → Bool) (ws : Nat)
    (users : Registry) (found : String × User)
    (h : (users.filter (fun p => p.2.ws == ws)).getLast? = some found)
    (hk : (found.1 == "") = true) :
    handleDisconnect isOpen ws users = (users, []) := by
  simp [handleDisconnect, h, hk]

/-- After deleting the key of the unique entry on socket `c`, no entry on
socket `c` remains. -/
theorem mapDelete_filter_ws_nil (users : Registry) (c : Nat) (found : String × User)
    (hsing : users.filter (fun p => p.2.ws == c) = [found]) :
    (mapDelete users found.1).filter (fun p => p.2.ws == c) = [] := by
  apply List.filter_eq_nil_iff.2
  intro p hp hpc
  obtain ⟨hpu, hpk⟩ := List.mem_filter.1 hp
  have hpf : p ∈ users.filter (fun q => q.2.ws == c) := List.mem_filter.2 ⟨hpu, hpc⟩
  rw [hsing] at hpf
  rw [List.mem_singleton.1 hpf] at hpk
  simp at hpk

/-- With pairwise-distinct keys, at most one entry carries a given key. -/
theorem filter_key_le_one (users : Registry) (k : String)
    (hnodup : (users.map Prod.fst).Nodup) :
    (users.filter (fun p => p.1 == k)).length ≤ 1 := by
  induction users with
  | nil => simp
  | cons a t ih =>
    rw [List.map_cons, List.nodup_cons] at hnodup
    obtain ⟨ha, ht⟩ := hnodup
    by_cases hak : (a.1 == k) = true
    · have hte : t.filter (fun p => p.1 == k) = [] := by
        apply List.filter_eq_nil_iff.2
        intro p hp hpk
        apply ha
        have h1 : p.1 = k := by simpa using hpk
        have h2 : a.1 = k := by simpa using hak
        rw [List.mem_map]
        exact ⟨p, hp, by rw [h1, h2]⟩
      simp [List.filter_cons, hak, hte]
    · have hak2 : (a.1 == k) = false := by simpa using hak
      simp only [List.filter_cons, hak2, Bool.false_eq_true, if_false]
      exact ih ht

/-- C4 counterexample: an `offer` envelope with no `targetUserId` from an open
sender (connection 0) produces NO send at all — in particular no `error` reply
to the sender — refuting the claim that every validation failure is answered
with an error envelope (the source only logs via `console.error` on the
signaling, typing and chat paths; only `handleJoin` replies). -/
theorem C4_counterexample :
    openAll 0 = true ∧
    (handleMessage openAll "u9" 0 0 { type := "offer" } [("u1", uAlice)]).2 = [] := by
  decide

/-- C4 amended: on a validation failure the registry is never changed; a join
with a falsy display name is answered with an `error` reply to the sender
(skipped if the sender is not open), while an `offer`/`answer`/`ice-candidate`
with a falsy target and a `message` with a falsy sender identity or display
name are silently dropped with no reply. -/
theorem C4_amended_validation_replies (isOpen : Nat → Bool) (freshId : String)
    (now ws : Nat) (m : Message) (users : Registry) :
    (truthy m.username = false →
      handleJoin isOpen freshId ws m users =
        (users, sendError isOpen ws "Username is required")) ∧
    (truthy m.targetUserId = false →
      handleWebRTCSignaling isOpen m users = (users, [])) ∧
    (truthy m.userId = false ∨ truthy m.username = false →
      handleChatMessage isOpen now m users = (users, [])) := by
  refine ⟨?_, ?_, ?_⟩
  · intro h
    exact handleJoin_bad isOpen freshId ws m users h
  · intro h
    simp [handleWebRTCSignaling, h]
  · intro h
    rcases h with h | h <;> simp [handleChatMessage, h]

/-- Witness for C4 (amended) at a concrete input: an envelope with every
optional field absent. -/
theorem C4_amended_validation_replies_witness :
    handleJoin openAll "u9" 0 { type := "join" } [] =
      ([], sendError openAll 0 "Username is required") ∧
    handleWebRTCSignaling openAll { type := "join" } [] = ([], []) ∧
    handleChatMessage openAll 5 { type := "join" } [] = ([], []) :=
  ⟨(C4_amended_validation_replies openAll "u9" 5 0 { type := "join" } []).1 (by decide),
   (C4_amended_validation_replies openAll "u9" 5 0 { type := "join" } []).2.1 (by decide),
   (C4_amended_validation_replies openAll "u9" 5 0 { type := "join" } []).2.2
     (Or.inl (by decide))⟩

/-- C9 counterexample: `handleJoin`'s `joined` reply (`server.ts` line 167) is
NOT guarded by an open-state check — a valid join arriving on a non-open
connection still performs a send of the `joined` envelope toward it, refuting
the claim that every send along every path is guarded. -/
theorem C9_counterexample :
    openNone 0 = false ∧
    (handleMessage openNone "u1" 0 0 mJoin []).2 = [(0, Out.joined "u1" "alice")] := by
  decide

/-- C9 amended: every send toward a non-open connection is the join-success
`joined` reply to the joining connection itself; every other send path (error
replies, verbatim forwards, chat fan-out, roster broadcasts, disconnect
broadcasts) is guarded by an open-state check and never targets a non-open
connection. -/
theorem C9_amended_guarded_sends (isOpen : Nat → Bool) (freshId : String)
    (now ws c : Nat) (m : Message) (users : Registry) :
    (∀ s ∈ (handleMessage isOpen freshId now ws m users).2, isOpen s.1 = false →
      s.1 = ws ∧ s.2 = Out.joined freshId (m.username.getD "")) ∧
    (∀ s ∈ (onClose isOpen c users).2, isOpen s.1 = true) ∧
    (∀ s ∈ (onTransportError c users).2, isOpen s.1 = true) := by
  refine ⟨?_, ?_, ?_⟩
  · intro s hs hopen
    unfold handleMessage at hs
    by_cases h1 : (m.type == "join") = true
    · rw [if_pos h1] at hs
      by_cases htr : truthy m.username = true
      · rw [handleJoin_ok isOpen freshId ws m users htr] at hs
        rcases List.mem_cons.1 hs with he | ht
        · rw [he]
          exact ⟨rfl, rfl⟩
        · exact absurd (broadcastUserList_open isOpen _ s ht) (by rw [hopen]; simp)
      · rw [handleJoin_bad isOpen freshId ws m users (by simpa using htr)] at hs
        exact absurd (sendError_open isOpen ws _ s hs) (by rw [hopen]; simp)
    · rw [if_neg h1] at hs
      by_cases h2 : (m.type == "offer" || m.type == "answer" || m.type == "ice-candidate") = true
      · rw [if_pos h2] at hs
        exact absurd (handleWebRTCSignaling_sends_fwd isOpen m users s hs).2
          (by rw [hopen]; simp)
      · rw [if_neg h2] at hs
        by_cases h3 : (m.type == "typing" || m.type == "stop-typing") = true
        · rw [if_pos h3] at hs
          exact absurd (handleTyping_sends_fwd isOpen m users s hs).2
            (by rw [hopen]; simp)
        · rw [if_neg h3] at hs
          by_cases h4 : (m.type == "message") = true
          · rw [if_pos h4] at hs
            exact absurd (handleChatMessage_open isOpen now m users s hs)
              (by rw [hopen]; simp)
          · rw [if_neg h4] at hs
            exact absurd (sendError_open isOpen ws _ s hs) (by rw [hopen]; simp)
  · intro s hs
    cases hf : (users.filter (fun p => p.2.ws == c)).getLast? with
    | none =>
      rw [show onClose isOpen c users = (users, []) from
        handleDisconnect_none isOpen c users hf] at hs
      exact absurd hs (List.not_mem_nil s)
    | some found =>
      by_cases hk : (found.1 == "") = true
      · rw [show onClose isOpen c users = (users, []) from
          handleDisconnect_found_empty isOpen c users found hf hk] at hs
        exact absurd hs (List.not_mem_nil s)
      · rw [show onClose isOpen c users =
            (mapDelete users found.1,
              broadcastUserList isOpen (mapDelete users found.1)) from
          handleDisconnect_found isOpen c users found hf (by simpa using hk)] at hs
        exact broadcastUserList_open isOpen _ s hs
  · intro s hs
    exact absurd hs (List.not_mem_nil s)

/-- Witness for C9 (amended) at the counterexample input: the one unguarded
send of a valid join on the closed connection 0 is the `joined` reply to that
same connection. -/
theorem C9_amended_guarded_sends_witness :
    (0, Out.joined "u1" "alice").1 = 0 ∧
    (0, Out.joined "u1" "alice").2 = Out.joined "u1" (mJoin.username.getD "") :=
  (C9_amended_guarded_sends openNone "u1" 0 0 0 mJoin []).1
    (0, Out.joined "u1" "alice") (by decide) (by decide)

/-- C1 counterexample: the same connection 0 joins twice (as `alice`, then as
`bob` — `handleJoin` never checks whether the socket already has an entry), so
two registry entries own connection handle 0; the subsequent close of
connection 0 removes only the last-registered entry, and an entry whose handle
is the closed connection remains — refuting both the at-most-one-owner part
and the no-entry-after-close part of the claim. -/
theorem C1_counterexample :
    (onClose openNone 0
        (handleJoin openNone "u2" 0 mJoinBob
          (handleJoin openNone "u1" 0 mJoin []).1).1).1 = [("u1", uAlice)] ∧
    ((onClose openNone 0
        (handleJoin openNone "u2" 0 mJoinBob
          (handleJoin openNone "u1" 0 mJoin []).1).1).1.any
      (fun p => p.2.ws == 0)) = true := by
  decide

/-- C1 amended: a disconnect removes at most one registry entry (the result is
a sublist missing at most one element, given the map invariant of
pairwise-distinct truthy keys); and provided at most one registry entry owns
the closing connection handle, after the close no entry with that handle
remains. -/
theorem C1_amended_registry_ownership (isOpen : Nat → Bool) (c : Nat)
    (users : Registry)
    (hkeys : ∀ p ∈ users, p.1 ≠ "")
    (hnodup : (users.map Prod.fst).Nodup)
    (hone : (users.filter (fun p => p.2.ws == c)).length ≤ 1) :
    (onClose isOpen c users).1.Sublist users ∧
    users.length ≤ (onClose isOpen c users).1.length + 1 ∧
    (onClose isOpen c users).1.filter (fun p => p.2.ws == c) = [] := by
  cases hf : (users.filter (fun p => p.2.ws == c)).getLast? with
  | none =>
    have hfe : users.filter (fun p => p.2.ws == c) = [] :=
      List.getLast?_eq_none_iff.mp hf
    rw [show onClose isOpen c users = (users, []) from
      handleDisconnect_none isOpen c users hf]
    exact ⟨List.Sublist.refl users, Nat.le_add_right users.length 1, hfe⟩
  | some found =>
    have hsing : users.filter (fun p => p.2.ws == c) = [found] :=
      eq_singleton_of_getLast_opt hf hone
    have hmemf : found ∈ users := (List.mem_filter.1 (mem_of_getLast_opt hf)).1
    have hk : (found.1 == "") = false := by simpa using hkeys found hmemf
    rw [show onClose isOpen c users =
        (mapDelete users found.1,
          broadcastUserList isOpen (mapDelete users found.1)) from
      handleDisconnect_found isOpen c users found hf hk]
    refine ⟨List.filter_sublist users, ?_, mapDelete_filter_ws_nil users c found hsing⟩
    have hlen := List.length_eq_length_filter_add
      (l := users) (fun p => p.1 != found.1)
    have hnotnot : users.filter (fun p => !(p.1 != found.1)) =
        users.filter (fun p => p.1 == found.1) := by
      apply List.filter_congr
      intro p _
      simp [bne]
    rw [hnotnot] at hlen
    have hle := filter_key_le_one users found.1 hnodup
    show users.length ≤ (users.filter (fun p => p.1 != found.1)).length + 1
    omega

/-- Witness for C1 (amended) at a concrete input: a well-formed two-user
registry in which exactly one entry owns connection 0. -/
theorem C1_amended_registry_ownership_witness :
    (onClose openAll 0 [("u1", uAlice), ("u3", uCarol)]).1.Sublist
      [("u1", uAlice), ("u3", uCarol)] ∧
    ([("u1", uAlice), ("u3", uCarol)] : Registry).length ≤
      (onClose openAll 0 [("u1", uAlice), ("u3", uCarol)]).1.length + 1 ∧
    (onClose openAll 0 [("u1", uAlice), ("u3", uCarol)]).1.filter
      (fun p => p.2.ws == 0) = [] :=
  C1_amended_registry_ownership openAll 0 [("u1", uAlice), ("u3", uCarol)]
    (by decide) (by decide) (by decide)

/-- C6 counterexample: with two entries owning connection handle 0 (reachable
by a double join on that handle) and an observer `uCarol` on the open
connection 1, invoking disconnect handling twice for handle 0 performs TWO
registry removals and TWO roster broadcasts — refuting the claimed idempotence;
moreover each invocation removed an entry, so the claim's
one-removal-one-broadcast consequence fails. -/
theorem C6_counterexample :
    (onClose openOne 0 [("u1", uAlice), ("u2", uBob), ("u3", uCarol)]).1 =
      [("u1", uAlice), ("u3", uCarol)] ∧
    (onClose openOne 0 [("u1", uAlice), ("u2", uBob), ("u3", uCarol)]).2 =
      [(1, Out.userList [("u1", "alice", true), ("u3", "carol", true)])] ∧
    (onClose openOne 0
        (onClose openOne 0 [("u1", uAlice), ("u2", uBob), ("u3", uCarol)]).1).1 =
      [("u3", uCarol)] ∧
    (onClose openOne 0
        (onClose openOne 0 [("u1", uAlice), ("u2", uBob), ("u3", uCarol)]).1).2 =
      [(1, Out.userList [("u3", "carol", true)])] := by
  decide

/-- C6 amended: a transport-reported error does not invoke disconnect handling
(registry unchanged, no sends); a close with no entry for the handle is a
no-op; a close whose last matching entry was found removes that one entry and
broadcasts the roster; and provided at most one entry owns the handle, the
second of two consecutive disconnect invocations is a no-op with no broadcast,
so exactly one removal and one broadcast occur in total. -/
theorem C6_amended_disconnect_idempotence (isOpen : Nat → Bool) (c : Nat)
    (users : Registry)
    (hkeys : ∀ p ∈ users, p.1 ≠ "")
    (hone : (users.filter (fun p => p.2.ws == c)).length ≤ 1) :
    onTransportError c users = (users, []) ∧
    (users.filter (fun p => p.2.ws == c) = [] →
      onClose isOpen c users = (users, [])) ∧
    (∀ found, (users.filter (fun p => p.2.ws == c)).getLast? = some found →
      onClose isOpen c users =
        (mapDelete users found.1,
          broadcastUserList isOpen (mapDelete users found.1))) ∧
    onClose isOpen c (onClose isOpen c users).1 = ((onClose isOpen c users).1, []) := by
  refine ⟨rfl, ?_, ?_, ?_⟩
  · intro hfe
    exact handleDisconnect_none isOpen c users (by rw [hfe]; rfl)
  · intro found hf
    have hmemf : found ∈ users := (List.mem_filter.1 (mem_of_getLast_opt hf)).1
    have hk : (found.1 == "") = false := by simpa using hkeys found hmemf
    exact handleDisconnect_found isOpen c users found hf hk
  · cases hf : (users.filter (fun p => p.2.ws == c)).getLast? with
    | none =>
      have h1 : onClose isOpen c users = (users, []) :=
        handleDisconnect_none isOpen c users hf
      rw [h1]
      exact handleDisconnect_none isOpen c users hf
    | some found =>
      have hsing : users.filter (fun p => p.2.ws == c) = [found] :=
        eq_singleton_of_getLast_opt hf hone
      have hmemf : found ∈ users := (List.mem_filter.1 (mem_of_getLast_opt hf)).1
      have hk : (found.1 == "") = false := by simpa using hkeys found hmemf
      have h1 : onClose isOpen c users =
          (mapDelete users found.1,
            broadcastUserList isOpen (mapDelete users found.1)) :=
        handleDisconnect_found isOpen c users found hf hk
      rw [h1]
      apply handleDisconnect_none
      rw [mapDelete_filter_ws_nil users c found hsing]
      rfl

/-- Witness for C6 (amended) at a concrete input: `uAlice` on connection 0,
observer `uCarol` on connection 1, closing connection 0 twice. -/
theorem C6_amended_disconnect_idempotence_witness :
    onTransportError 0 [("u1", uAlice), ("u3", uCarol)] =
      ([("u1", uAlice), ("u3", uCarol)], []) ∧
    onClose openAll 0 [("u1", uAlice), ("u3", uCarol)] =
      (mapDelete [("u1", uAlice), ("u3", uCarol)] "u1",
        broadcastUserList openAll (mapDelete [("u1", uAlice), ("u3", uCarol)] "u1")) ∧
    onClose openAll 0 (onClose openAll 0 [("u1", uAlice), ("u3", uCarol)]).1 =
      ((onClose openAll 0 [("u1", uAlice), ("u3", uCarol)]).1, []) := by
  have h := C6_amended_disconnect_idempotence openAll 0
    [("u1", uAlice), ("u3", uCarol)] (by decide) (by decide)
  exact ⟨h.1, h.2.2.1 ("u1", uAlice) (by decide), h.2.2.2⟩
